import Mathlib

/-! Audio relay proxy (server/src/index.js): session model

Shallow embedding of the per-connection closure of `wss.on("connection", ...)`.
The three closure variables `deepgramSocket`, `deepgramReady` and `audioQueue`
form the session state; every listener body is a function from a state to a
new state together with the list of calls it makes on the two sockets.
Console output is not recorded.

The `ws` library is external to the repository.  What the listeners observe of
it is the `readyState` field of the Deepgram socket, modelled with the four
values of the WebSocket API and the transitions the library performs:
a new socket is CONNECTING, it becomes OPEN right before its "open" listeners
run, CLOSING when `close()` is called or an error is reported, and CLOSED
right before its "close" listeners run.  A call of `send` is recorded together
with the `readyState` of the socket at the call (the library throws when a
socket that is still CONNECTING is asked to send).

index.js imports the named export `WebSocketServer`, which `ws` offers from
version 8 on.  From that version the "message" event hands every frame of the
peer, text frames included, to its listeners as a `Buffer`, with a second
argument `isBinary` that the listener of index.js does not take.  A producer
message event therefore carries the kind of the frame and its bytes, and the
listener is run on the `Buffer` of those bytes.

The text of a string is kept as a list of code points, and the bytes of a
`Buffer` as a list of numbers.
-/

namespace Relay

/-- Raw bytes of a Node `Buffer`; each element is meant to be below 256. -/
abbrev Bytes := List Nat

/-- Text of a JavaScript string, as the sequence of its Unicode code points. -/
abbrev Text := List Nat

/-- A JavaScript value the relay handles: a `Buffer`, or a string (such as
the strings the relay builds itself and passes to `send`). -/
inductive Data where
  | buffer (bytes : Bytes)
  | text (s : Text)
deriving DecidableEq, Repr

/-- The test `data instanceof Buffer`. -/
def Data.instanceofBuffer : Data → Bool
  | .buffer _ => true
  | .text _ => false

/-! ## UTF-8 (what `Buffer.prototype.toString()` and a text frame do) -/

/-- Continuation byte 10xxxxxx. -/
def isContinuation (b : Nat) : Bool := 0x80 ≤ b && b ≤ 0xBF

/-- Smallest admissible second byte after the lead byte `b0`. -/
def secondLower (b0 : Nat) : Nat :=
  if b0 = 0xE0 then 0xA0 else if b0 = 0xF0 then 0x90 else 0x80

/-- Largest admissible second byte after the lead byte `b0`. -/
def secondUpper (b0 : Nat) : Nat :=
  if b0 = 0xED then 0x9F else if b0 = 0xF4 then 0x8F else 0xBF

/-- The second byte `b1` is admissible after the lead byte `b0`. -/
def isSecond (b0 b1 : Nat) : Bool := secondLower b0 ≤ b1 && b1 ≤ secondUpper b0

/-- UTF-8 decoding with replacement: every ill-formed part of the input
becomes U+FFFD.  This is the default decoding of `Buffer.prototype.toString()`. -/
def utf8Decode : Bytes → Text
  | [] => []
  | b0 :: rest =>
    if b0 < 0x80 then b0 :: utf8Decode rest
    else if 0xC2 ≤ b0 ∧ b0 ≤ 0xDF then
      match rest with
      | [] => [0xFFFD]
      | b1 :: r1 =>
        if isContinuation b1 then (b0 % 32 * 64 + b1 % 64) :: utf8Decode r1
        else 0xFFFD :: utf8Decode (b1 :: r1)
    else if 0xE0 ≤ b0 ∧ b0 ≤ 0xEF then
      match rest with
      | [] => [0xFFFD]
      | b1 :: r1 =>
        if isSecond b0 b1 then
          match r1 with
          | [] => [0xFFFD]
          | b2 :: r2 =>
            if isContinuation b2 then
              (b0 % 16 * 4096 + b1 % 64 * 64 + b2 % 64) :: utf8Decode r2
            else 0xFFFD :: utf8Decode (b2 :: r2)
        else 0xFFFD :: utf8Decode (b1 :: r1)
    else if 0xF0 ≤ b0 ∧ b0 ≤ 0xF4 then
      match rest with
      | [] => [0xFFFD]
      | b1 :: r1 =>
        if isSecond b0 b1 then
          match r1 with
          | [] => [0xFFFD]
          | b2 :: r2 =>
            if isContinuation b2 then
              match r2 with
              | [] => [0xFFFD]
              | b3 :: r3 =>
                if isContinuation b3 then
                  (b0 % 8 * 262144 + b1 % 64 * 4096 + b2 % 64 * 64 + b3 % 64)
                    :: utf8Decode r3
                else 0xFFFD :: utf8Decode (b3 :: r3)
            else 0xFFFD :: utf8Decode (b2 :: r2)
        else 0xFFFD :: utf8Decode (b1 :: r1)
    else 0xFFFD :: utf8Decode rest

/-- UTF-8 encoding of one code point (a lone surrogate is written as U+FFFD). -/
def utf8EncodeChar (c : Nat) : Bytes :=
  if c < 0x80 then [c]
  else if c < 0x800 then [0xC0 + c / 64, 0x80 + c % 64]
  else if 0xD800 ≤ c ∧ c ≤ 0xDFFF then [0xEF, 0xBF, 0xBD]
  else if c < 0x10000 then [0xE0 + c / 4096, 0x80 + c / 64 % 64, 0x80 + c % 64]
  else [0xF0 + c / 262144, 0x80 + c / 4096 % 64, 0x80 + c / 64 % 64, 0x80 + c % 64]

/-- Bytes put on the wire when a string is sent as a text frame. -/
def utf8Encode : Text → Bytes
  | [] => []
  | c :: cs => utf8EncodeChar c ++ utf8Encode cs

/-- Well-formed UTF-8: the byte sequence splits into complete encodings of
Unicode scalar values. -/
def validUtf8 : Bytes → Bool
  | [] => true
  | b0 :: rest =>
    if b0 < 0x80 then validUtf8 rest
    else if 0xC2 ≤ b0 ∧ b0 ≤ 0xDF then
      match rest with
      | [] => false
      | b1 :: r1 => isContinuation b1 && validUtf8 r1
    else if 0xE0 ≤ b0 ∧ b0 ≤ 0xEF then
      match rest with
      | b1 :: b2 :: r2 => isSecond b0 b1 && isContinuation b2 && validUtf8 r2
      | _ => false
    else if 0xF0 ≤ b0 ∧ b0 ≤ 0xF4 then
      match rest with
      | b1 :: b2 :: b3 :: r3 =>
        isSecond b0 b1 && isContinuation b2 && isContinuation b3 && validUtf8 r3
      | _ => false
    else false

/-- The call `msg.toString()`: a `Buffer` is decoded as UTF-8, a string is
returned as it is. -/
def Data.toString : Data → Text
  | .buffer bytes => utf8Decode bytes
  | .text s => s

/-! ## Sockets, session state, observable calls -/

/-- The `readyState` of a WebSocket. -/
inductive ReadyState where
  | CONNECTING
  | OPEN
  | CLOSING
  | CLOSED
deriving DecidableEq, Repr

/-- The part of a `ws` WebSocket object the relay reads. -/
structure WebSocket where
  readyState : ReadyState
deriving DecidableEq, Repr

/-- What `createDeepgramSocket()` returns (deepgram.js): a new WebSocket, whose
handshake has not completed yet. -/
def createDeepgramSocket : WebSocket := ⟨.CONNECTING⟩

/-- The method `close()`: an open socket starts its closing handshake. -/
def WebSocket.close (ws : WebSocket) : WebSocket :=
  match ws.readyState with
  | .CLOSED => ws
  | _ => { ws with readyState := .CLOSING }

/-- Library side of the "open" event: a connecting socket becomes OPEN. -/
def WebSocket.emitOpen (ws : WebSocket) : WebSocket :=
  match ws.readyState with
  | .CONNECTING => { ws with readyState := .OPEN }
  | _ => ws

/-- Library side of the "error" event: the socket is on its way down. -/
def WebSocket.emitError (ws : WebSocket) : WebSocket :=
  match ws.readyState with
  | .CLOSED => ws
  | _ => { ws with readyState := .CLOSING }

/-- Library side of the "close" event: the socket is CLOSED. -/
def WebSocket.emitClose (ws : WebSocket) : WebSocket :=
  { ws with readyState := .CLOSED }

/-- A call made by the relay on one of its two sockets, or on the factory.
`deepgramSend` records the `readyState` the Deepgram socket had at the call. -/
inductive Effect where
  | createDeepgramSocket
  | deepgramSend (readyState : ReadyState) (data : Data)
  | deepgramClose
  | clientSend (s : Text)
deriving DecidableEq, Repr

/-- The closure variables of one connection (index.js lines 37-39). -/
structure Session where
  deepgramSocket : Option WebSocket
  deepgramReady : Bool
  audioQueue : List Data
deriving DecidableEq, Repr

/-- State at the end of the "connection" listener: `null`, `false`, `[]`. -/
def Session.init : Session :=
  { deepgramSocket := none, deepgramReady := false, audioQueue := [] }

/-- The string `JSON.stringify({ type: "CloseStream" })`. -/
def closeStreamMessage : Data :=
  .text ("\x7b\"type\":\"CloseStream\"\x7d".toList.map Char.toNat)

/-! ## The listeners -/

/-- Listener of `deepgramSocket.on("open")` (index.js lines 54-62), run on a
session whose Deepgram socket is `ws`: set the ready flag, send every queued
chunk in queue order, empty the queue. -/
def deepgramOnOpen (s : Session) (ws : WebSocket) : Session × List Effect :=
  ({ s with deepgramReady := true, audioQueue := [] },
   s.audioQueue.map (fun chunk => Effect.deepgramSend ws.readyState chunk))

/-- Listener of `deepgramSocket.on("message")` (lines 67-70). -/
def deepgramOnMessage (s : Session) (msg : Data) : Session × List Effect :=
  (s, [Effect.clientSend msg.toString])

/-- Listener of `deepgramSocket.on("error")` (lines 75-77): logs only. -/
def deepgramOnError (s : Session) : Session × List Effect := (s, [])

/-- Listener of `deepgramSocket.on("close")` (lines 82-84): logs only. -/
def deepgramOnClose (s : Session) : Session × List Effect := (s, [])

/-- Listener of `clientSocket.on("message")` (lines 44-97). -/
def clientOnMessage (s : Session) (data : Data) : Session × List Effect :=
  -- if (!deepgramSocket) { deepgramSocket = createDeepgramSocket(); ... }
  let (s1, ws, created) : Session × WebSocket × List Effect :=
    match s.deepgramSocket with
    | none =>
      ({ s with deepgramSocket := some createDeepgramSocket }, createDeepgramSocket,
       [Effect.createDeepgramSocket])
    | some ws => (s, ws, [])
  -- if (!(data instanceof Buffer)) return;
  if !data.instanceofBuffer then (s1, created)
  -- if (!deepgramReady) audioQueue.push(data) else deepgramSocket.send(data)
  else if !s1.deepgramReady then
    ({ s1 with audioQueue := s1.audioQueue ++ [data] }, created)
  else (s1, created ++ [Effect.deepgramSend ws.readyState data])

/-- Listener of `clientSocket.on("close")` (lines 102-111). -/
def clientOnClose (s : Session) : Session × List Effect :=
  match s.deepgramSocket with
  | none => (s, [])
  | some ws =>
    if ws.readyState = ReadyState.OPEN then
      ({ s with deepgramSocket := some ws.close },
       [Effect.deepgramSend ws.readyState closeStreamMessage, Effect.deepgramClose])
    else (s, [])

/-- Listener of `clientSocket.on("error")` (lines 116-118): logs only. -/
def clientOnError (s : Session) : Session × List Effect := (s, [])

/-! ## Events of one session -/

/-- What the event loop can deliver to a session. -/
inductive Event where
  | clientMessage (isBinary : Bool) (payload : Bytes)
  | clientClose
  | clientError
  | deepgramOpen
  | deepgramMessage (msg : Data)
  | deepgramError
  | deepgramClose
deriving DecidableEq, Repr

/-- One event: the library updates the socket, then the listener runs.  A
frame of the producer, binary or text, reaches the listener as the `Buffer` of
its bytes.  The Deepgram listeners are registered when the socket is created,
so a Deepgram event does nothing while `deepgramSocket` is `null`. -/
def step (s : Session) : Event → Session × List Effect
  | .clientMessage _ payload => clientOnMessage s (Data.buffer payload)
  | .clientClose => clientOnClose s
  | .clientError => clientOnError s
  | .deepgramOpen =>
    match s.deepgramSocket with
    | none => (s, [])
    | some ws => deepgramOnOpen { s with deepgramSocket := some ws.emitOpen } ws.emitOpen
  | .deepgramMessage msg =>
    match s.deepgramSocket with
    | none => (s, [])
    | some _ => deepgramOnMessage s msg
  | .deepgramError =>
    match s.deepgramSocket with
    | none => (s, [])
    | some ws => deepgramOnError { s with deepgramSocket := some ws.emitError }
  | .deepgramClose =>
    match s.deepgramSocket with
    | none => (s, [])
    | some ws => deepgramOnClose { s with deepgramSocket := some ws.emitClose }

/-- A sequence of events, handled one after the other; the calls made are
collected in order. -/
def run (s : Session) : List Event → Session × List Effect
  | [] => (s, [])
  | e :: es => ((run (step s e).1 es).1, (step s e).2 ++ (run (step s e).1 es).2)

/-- Session state after the events `es`, starting from a fresh connection. -/
def stateAfter (es : List Event) : Session := (run Session.init es).1

/-- Calls made while handling `es`, starting from a fresh connection. -/
def callsOf (es : List Event) : List Effect := (run Session.init es).2

/-! ## Observations on event and call sequences -/

/-- Every payload passed to `deepgramSocket.send`, in call order. -/
def deepgramSends : List Effect → List Data
  | [] => []
  | .deepgramSend _ data :: rest => data :: deepgramSends rest
  | _ :: rest => deepgramSends rest

/-- The audio payloads (Buffers) passed to `deepgramSocket.send`, in call order. -/
def audioSent (out : List Effect) : List Data :=
  (deepgramSends out).filter Data.instanceofBuffer

/-- Number of invocations of `createDeepgramSocket`. -/
def factoryCalls (out : List Effect) : Nat := out.count Effect.createDeepgramSocket

/-- The binary frames received from the producer, in arrival order, each as
the `Buffer` of its bytes. -/
def binaryFrames : List Event → List Data
  | [] => []
  | .clientMessage isBinary payload :: es =>
    if isBinary then Data.buffer payload :: binaryFrames es else binaryFrames es
  | _ :: es => binaryFrames es

/-- All the frames received from the producer, binary and text, in arrival
order, each as the `Buffer` of its bytes. -/
def framesReceived : List Event → List Data
  | [] => []
  | .clientMessage _ payload :: es => Data.buffer payload :: framesReceived es
  | _ :: es => framesReceived es

/-- Events that are a producer frame or a Deepgram message. -/
def Event.isTraffic : Event → Bool
  | .clientMessage _ _ => true
  | .deepgramMessage _ => true
  | _ => false

/-- Events that are a producer frame. -/
def Event.isProducerFrame : Event → Bool
  | .clientMessage _ _ => true
  | _ => false

/-- Facts that hold of the session state after any sequence of events: the
queue holds Buffers only, and once the ready flag is set the queue is empty
and the socket exists and has left the CONNECTING state. -/
def Inv (s : Session) : Prop :=
  (∀ d ∈ s.audioQueue, d.instanceofBuffer = true) ∧
  (s.deepgramReady = true →
    s.audioQueue = [] ∧
    ∃ ws, s.deepgramSocket = some ws ∧ ws.readyState ≠ ReadyState.CONNECTING)

/-! ## Basic facts about `run` and the observations -/

theorem run_append (s : Session) (es fs : List Event) :
    run s (es ++ fs) =
      ((run (run s es).1 fs).1, (run s es).2 ++ (run (run s es).1 fs).2) := by
  induction es generalizing s with
  | nil => simp [run]
  | cons e es ih => simp [run, ih, List.append_assoc]

theorem stateAfter_snoc (es : List Event) (e : Event) :
    stateAfter (es ++ [e]) = (step (stateAfter es) e).1 := by
  simp [stateAfter, run_append, run]

theorem callsOf_snoc (es : List Event) (e : Event) :
    callsOf (es ++ [e]) = callsOf es ++ (step (stateAfter es) e).2 := by
  simp [callsOf, stateAfter, run_append, run]

theorem deepgramSends_append (a b : List Effect) :
    deepgramSends (a ++ b) = deepgramSends a ++ deepgramSends b := by
  induction a with
  | nil => rfl
  | cons x xs ih => cases x <;> simp [deepgramSends, ih]

theorem audioSent_append (a b : List Effect) :
    audioSent (a ++ b) = audioSent a ++ audioSent b := by
  simp [audioSent, deepgramSends_append]

theorem deepgramSends_map_send (rs : ReadyState) (q : List Data) :
    deepgramSends (q.map (fun chunk => Effect.deepgramSend rs chunk)) = q := by
  induction q with
  | nil => rfl
  | cons x xs ih => simp [deepgramSends, ih]

theorem inv_init : Inv Session.init := by
  simp [Inv, Session.init]

theorem inv_step (s : Session) (e : Event) (h : Inv s) : Inv (step s e).1 := by
  obtain ⟨hq, hr⟩ := h
  cases e with
  | clientMessage isBinary payload =>
    cases hs : s.deepgramSocket with
    | none =>
      cases hrd : s.deepgramReady <;>
        simp_all [Inv, step, clientOnMessage, Data.instanceofBuffer]
      rintro d (hd | rfl)
      · exact hq d hd
      · rfl
    | some ws =>
      cases hrd : s.deepgramReady <;>
        simp_all [Inv, step, clientOnMessage, Data.instanceofBuffer]
      rintro d (hd | rfl)
      · exact hq d hd
      · rfl
  | clientClose =>
    cases hs : s.deepgramSocket with
    | none => simp_all [Inv, step, clientOnClose]
    | some ws =>
      by_cases ho : ws.readyState = ReadyState.OPEN
      · simp_all [Inv, step, clientOnClose, WebSocket.close]
      · simp_all [Inv, step, clientOnClose]
  | clientError => simp_all [Inv, step, clientOnError]
  | deepgramOpen =>
    cases hs : s.deepgramSocket with
    | none => simp_all [Inv, step]
    | some ws =>
      cases hrs : ws.readyState <;>
        simp_all [Inv, step, deepgramOnOpen, WebSocket.emitOpen]
  | deepgramMessage msg =>
    cases hs : s.deepgramSocket with
    | none => simp_all [Inv, step]
    | some ws => simp_all [Inv, step, deepgramOnMessage]
  | deepgramError =>
    cases hs : s.deepgramSocket with
    | none => simp_all [Inv, step]
    | some ws =>
      cases hrs : ws.readyState <;>
        simp_all [Inv, step, deepgramOnError, WebSocket.emitError]
  | deepgramClose =>
    cases hs : s.deepgramSocket with
    | none => simp_all [Inv, step]
    | some ws => simp_all [Inv, step, deepgramOnClose, WebSocket.emitClose]

theorem inv_run (s : Session) (es : List Event) (h : Inv s) : Inv (run s es).1 := by
  induction es generalizing s with
  | nil => simpa [run] using h
  | cons e es ih => simpa [run] using ih _ (inv_step s e h)

theorem inv_stateAfter (es : List Event) : Inv (stateAfter es) :=
  inv_run _ es inv_init

theorem framesReceived_cons (e : Event) (es : List Event) :
    framesReceived (e :: es) = framesReceived [e] ++ framesReceived es := by
  cases e <;> simp [framesReceived]

/-- One event keeps the books balanced: what was sent by the listener followed
by the new queue is the old queue followed by the frame just received, be it
a binary or a text frame. -/
theorem step_conserves (s : Session) (e : Event) (h : Inv s) :
    audioSent (step s e).2 ++ (step s e).1.audioQueue
      = s.audioQueue ++ framesReceived [e] := by
  obtain ⟨hq, hr⟩ := h
  cases e with
  | clientMessage isBinary payload =>
    cases hs : s.deepgramSocket <;>
      cases hrd : s.deepgramReady <;>
        simp_all [step, clientOnMessage, audioSent, deepgramSends, framesReceived,
          Data.instanceofBuffer]
  | clientClose =>
    cases hs : s.deepgramSocket with
    | none => simp [step, clientOnClose, hs, audioSent, deepgramSends, framesReceived]
    | some ws =>
      by_cases ho : ws.readyState = ReadyState.OPEN
      · simp [step, clientOnClose, hs, ho, audioSent, deepgramSends, framesReceived,
          closeStreamMessage, Data.instanceofBuffer]
      · simp [step, clientOnClose, hs, ho, audioSent, deepgramSends, framesReceived]
  | clientError => simp [step, clientOnError, audioSent, deepgramSends, framesReceived]
  | deepgramOpen =>
    cases hs : s.deepgramSocket with
    | none => simp [step, hs, audioSent, deepgramSends, framesReceived]
    | some ws =>
      simp [step, hs, deepgramOnOpen, audioSent, deepgramSends_map_send, framesReceived]
      exact hq
  | deepgramMessage msg =>
    cases hs : s.deepgramSocket <;>
      simp [step, hs, deepgramOnMessage, audioSent, deepgramSends, framesReceived]
  | deepgramError =>
    cases hs : s.deepgramSocket <;>
      simp [step, hs, deepgramOnError, audioSent, deepgramSends, framesReceived]
  | deepgramClose =>
    cases hs : s.deepgramSocket <;>
      simp [step, hs, deepgramOnClose, audioSent, deepgramSends, framesReceived]

theorem run_conserves (s : Session) (es : List Event) (h : Inv s) :
    audioSent (run s es).2 ++ (run s es).1.audioQueue
      = s.audioQueue ++ framesReceived es := by
  induction es generalizing s with
  | nil => simp [run, audioSent, deepgramSends, framesReceived]
  | cons e es ih =>
    have h1 := step_conserves s e h
    have h2 := ih (step s e).1 (inv_step s e h)
    rw [framesReceived_cons]
    simp only [run, audioSent_append, List.append_assoc]
    rw [h2, ← List.append_assoc, h1, List.append_assoc]

/-- What the relay really conserves: after any sequence of session events,
the Buffers sent so far to the Deepgram socket followed by the queue are all
the frames received so far from the producer, text frames included. -/
theorem sent_then_queue_eq_all_frames (es : List Event) :
    audioSent (callsOf es) ++ (stateAfter es).audioQueue = framesReceived es := by
  have := run_conserves Session.init es inv_init
  simpa [callsOf, stateAfter, Session.init] using this

/-- The variable `deepgramSocket` is never set back to `null`. -/
theorem step_socket_ne_none (s : Session) (e : Event)
    (h : s.deepgramSocket ≠ none) : (step s e).1.deepgramSocket ≠ none := by
  obtain ⟨ws, hws⟩ := Option.ne_none_iff_exists'.mp h
  cases e with
  | clientMessage isBinary payload =>
    cases hrd : s.deepgramReady <;>
      simp [step, clientOnMessage, hws, Data.instanceofBuffer, hrd]
  | clientClose =>
    by_cases ho : ws.readyState = ReadyState.OPEN <;> simp [step, clientOnClose, hws, ho]
  | clientError => simp [step, clientOnError, hws]
  | deepgramOpen => simp [step, deepgramOnOpen, hws]
  | deepgramMessage msg => simp [step, deepgramOnMessage, hws]
  | deepgramError => simp [step, deepgramOnError, hws]
  | deepgramClose => simp [step, deepgramOnClose, hws]

theorem run_socket_ne_none (s : Session) (es : List Event)
    (h : s.deepgramSocket ≠ none) : (run s es).1.deepgramSocket ≠ none := by
  induction es generalizing s with
  | nil => simpa [run] using h
  | cons e es ih => simpa [run] using ih _ (step_socket_ne_none s e h)

/-- Producer frames and Deepgram messages arriving while the ready flag is
unset: the flag stays unset, every producer frame joins the queue in order,
and nothing is sent to Deepgram. -/
theorem run_traffic_not_ready (es : List Event) (s : Session)
    (h : s.deepgramReady = false) (hes : ∀ e ∈ es, e.isTraffic = true) :
    (run s es).1.deepgramReady = false
    ∧ (run s es).1.audioQueue = s.audioQueue ++ framesReceived es
    ∧ deepgramSends (run s es).2 = [] := by
  induction es generalizing s with
  | nil => simp [run, deepgramSends, framesReceived, h]
  | cons e es ih =>
    have hrest : ∀ x ∈ es, x.isTraffic = true := fun x hx =>
      hes x (List.mem_cons_of_mem _ hx)
    have hstep : (step s e).1.deepgramReady = false
        ∧ (step s e).1.audioQueue = s.audioQueue ++ framesReceived [e]
        ∧ deepgramSends (step s e).2 = [] := by
      have he := hes e (List.mem_cons_self _ _)
      cases e with
      | clientMessage isBinary payload =>
        cases hs : s.deepgramSocket <;>
          simp [step, clientOnMessage, Data.instanceofBuffer, hs, h, deepgramSends,
            framesReceived]
      | deepgramMessage msg =>
        cases hs : s.deepgramSocket <;>
          simp [step, deepgramOnMessage, hs, h, deepgramSends, framesReceived]
      | clientClose => simp [Event.isTraffic] at he
      | clientError => simp [Event.isTraffic] at he
      | deepgramOpen => simp [Event.isTraffic] at he
      | deepgramError => simp [Event.isTraffic] at he
      | deepgramClose => simp [Event.isTraffic] at he
    obtain ⟨h1, h2, h3⟩ := hstep
    obtain ⟨i1, i2, i3⟩ := ih (step s e).1 h1 hrest
    refine ⟨?_, ?_, ?_⟩
    · simpa [run] using i1
    · simp only [run]
      rw [i2, h2, framesReceived_cons e es, List.append_assoc]
    · simp only [run, deepgramSends_append]
      rw [i3, h3]; rfl

/-- Producer frames and Deepgram messages arriving once the ready flag is
set: the session state does not change and every producer frame is passed
straight to `deepgramSocket.send`, in order. -/
theorem run_traffic_ready (es : List Event) (s : Session) (ws : WebSocket)
    (hs : s.deepgramSocket = some ws) (h : s.deepgramReady = true)
    (hes : ∀ e ∈ es, e.isTraffic = true) :
    (run s es).1 = s ∧ deepgramSends (run s es).2 = framesReceived es := by
  induction es with
  | nil => simp [run, deepgramSends, framesReceived]
  | cons e es ih =>
    have hrest : ∀ x ∈ es, x.isTraffic = true := fun x hx =>
      hes x (List.mem_cons_of_mem _ hx)
    have hstep : (step s e).1 = s ∧ deepgramSends (step s e).2 = framesReceived [e] := by
      have he := hes e (List.mem_cons_self _ _)
      cases e with
      | clientMessage isBinary payload =>
        simp [step, clientOnMessage, Data.instanceofBuffer, hs, h, deepgramSends,
          framesReceived]
      | deepgramMessage msg =>
        simp [step, deepgramOnMessage, hs, deepgramSends, framesReceived]
      | clientClose => simp [Event.isTraffic] at he
      | clientError => simp [Event.isTraffic] at he
      | deepgramOpen => simp [Event.isTraffic] at he
      | deepgramError => simp [Event.isTraffic] at he
      | deepgramClose => simp [Event.isTraffic] at he
    obtain ⟨h1, h2⟩ := hstep
    obtain ⟨i1, i2⟩ := ih hrest
    refine ⟨?_, ?_⟩
    · simp only [run]
      rw [h1]; exact i1
    · simp only [run, deepgramSends_append]
      rw [h1, i2, h2, framesReceived_cons e es]

/-- A producer frame puts the socket in place. -/
theorem step_frame_socket (s : Session) (e : Event) (he : e.isProducerFrame = true) :
    (step s e).1.deepgramSocket ≠ none := by
  cases e with
  | clientMessage isBinary payload =>
    cases hs : s.deepgramSocket <;> cases hrd : s.deepgramReady <;>
      simp [step, clientOnMessage, Data.instanceofBuffer, hs, hrd]
  | clientClose => simp [Event.isProducerFrame] at he
  | clientError => simp [Event.isProducerFrame] at he
  | deepgramOpen => simp [Event.isProducerFrame] at he
  | deepgramMessage msg => simp [Event.isProducerFrame] at he
  | deepgramError => simp [Event.isProducerFrame] at he
  | deepgramClose => simp [Event.isProducerFrame] at he

/-- The "open" event on a session whose socket exists. -/
theorem step_open_of_socket (s : Session) (ws : WebSocket)
    (hs : s.deepgramSocket = some ws) :
    step s .deepgramOpen
      = ({ deepgramSocket := some ws.emitOpen, deepgramReady := true, audioQueue := [] },
         s.audioQueue.map (fun chunk => Effect.deepgramSend ws.emitOpen.readyState chunk)) := by
  simp [step, deepgramOnOpen, hs]

/-! ## UTF-8: decoding a well-formed sequence and encoding it again -/

theorem enc2 (b0 b1 : Nat) (h0 : 0xC2 ≤ b0 ∧ b0 ≤ 0xDF) (h1 : isContinuation b1 = true) :
    utf8EncodeChar (b0 % 32 * 64 + b1 % 64) = [b0, b1] := by
  simp only [isContinuation, Bool.and_eq_true, decide_eq_true_eq] at h1
  unfold utf8EncodeChar
  have c1 : ¬ (b0 % 32 * 64 + b1 % 64 < 0x80) := by omega
  have c2 : b0 % 32 * 64 + b1 % 64 < 0x800 := by omega
  rw [if_neg c1, if_pos c2]
  have e1 : 0xC0 + (b0 % 32 * 64 + b1 % 64) / 64 = b0 := by omega
  have e2 : 0x80 + (b0 % 32 * 64 + b1 % 64) % 64 = b1 := by omega
  rw [e1, e2]

theorem enc3 (b0 b1 b2 : Nat) (h0 : 0xE0 ≤ b0 ∧ b0 ≤ 0xEF) (h1 : isSecond b0 b1 = true)
    (h2 : isContinuation b2 = true) :
    utf8EncodeChar (b0 % 16 * 4096 + b1 % 64 * 64 + b2 % 64) = [b0, b1, b2] := by
  simp only [isContinuation, Bool.and_eq_true, decide_eq_true_eq] at h2
  simp only [isSecond, secondLower, secondUpper, Bool.and_eq_true, decide_eq_true_eq] at h1
  have hl : 0x80 ≤ b1 ∧ b1 ≤ 0xBF ∧ (b0 = 0xE0 → 0xA0 ≤ b1) ∧ (b0 = 0xED → b1 ≤ 0x9F) := by
    split_ifs at h1 <;> omega
  unfold utf8EncodeChar
  have c1 : ¬ (b0 % 16 * 4096 + b1 % 64 * 64 + b2 % 64 < 0x80) := by omega
  have c2 : ¬ (b0 % 16 * 4096 + b1 % 64 * 64 + b2 % 64 < 0x800) := by omega
  have c3 : ¬ (0xD800 ≤ b0 % 16 * 4096 + b1 % 64 * 64 + b2 % 64
      ∧ b0 % 16 * 4096 + b1 % 64 * 64 + b2 % 64 ≤ 0xDFFF) := by omega
  have c4 : b0 % 16 * 4096 + b1 % 64 * 64 + b2 % 64 < 0x10000 := by omega
  rw [if_neg c1, if_neg c2, if_neg c3, if_pos c4]
  have e1 : 0xE0 + (b0 % 16 * 4096 + b1 % 64 * 64 + b2 % 64) / 4096 = b0 := by omega
  have e2 : 0x80 + (b0 % 16 * 4096 + b1 % 64 * 64 + b2 % 64) / 64 % 64 = b1 := by omega
  have e3 : 0x80 + (b0 % 16 * 4096 + b1 % 64 * 64 + b2 % 64) % 64 = b2 := by omega
  rw [e1, e2, e3]

theorem enc4 (b0 b1 b2 b3 : Nat) (h0 : 0xF0 ≤ b0 ∧ b0 ≤ 0xF4) (h1 : isSecond b0 b1 = true)
    (h2 : isContinuation b2 = true) (h3 : isContinuation b3 = true) :
    utf8EncodeChar (b0 % 8 * 262144 + b1 % 64 * 4096 + b2 % 64 * 64 + b3 % 64)
      = [b0, b1, b2, b3] := by
  simp only [isContinuation, Bool.and_eq_true, decide_eq_true_eq] at h2 h3
  simp only [isSecond, secondLower, secondUpper, Bool.and_eq_true, decide_eq_true_eq] at h1
  have hl : 0x80 ≤ b1 ∧ b1 ≤ 0xBF ∧ (b0 = 0xF0 → 0x90 ≤ b1) ∧ (b0 = 0xF4 → b1 ≤ 0x8F) := by
    split_ifs at h1 <;> omega
  unfold utf8EncodeChar
  have c1 : ¬ (b0 % 8 * 262144 + b1 % 64 * 4096 + b2 % 64 * 64 + b3 % 64 < 0x80) := by omega
  have c2 : ¬ (b0 % 8 * 262144 + b1 % 64 * 4096 + b2 % 64 * 64 + b3 % 64 < 0x800) := by omega
  have c3 : ¬ (0xD800 ≤ b0 % 8 * 262144 + b1 % 64 * 4096 + b2 % 64 * 64 + b3 % 64
      ∧ b0 % 8 * 262144 + b1 % 64 * 4096 + b2 % 64 * 64 + b3 % 64 ≤ 0xDFFF) := by omega
  have c4 : ¬ (b0 % 8 * 262144 + b1 % 64 * 4096 + b2 % 64 * 64 + b3 % 64 < 0x10000) := by omega
  rw [if_neg c1, if_neg c2, if_neg c3, if_neg c4]
  have e1 : 0xF0 + (b0 % 8 * 262144 + b1 % 64 * 4096 + b2 % 64 * 64 + b3 % 64) / 262144 = b0 := by omega
  have e2 : 0x80 + (b0 % 8 * 262144 + b1 % 64 * 4096 + b2 % 64 * 64 + b3 % 64) / 4096 % 64 = b1 := by omega
  have e3 : 0x80 + (b0 % 8 * 262144 + b1 % 64 * 4096 + b2 % 64 * 64 + b3 % 64) / 64 % 64 = b2 := by omega
  have e4 : 0x80 + (b0 % 8 * 262144 + b1 % 64 * 4096 + b2 % 64 * 64 + b3 % 64) % 64 = b3 := by omega
  rw [e1, e2, e3, e4]

theorem validUtf8_cons (b0 : Nat) (rest : Bytes) :
    validUtf8 (b0 :: rest) =
      (if b0 < 0x80 then validUtf8 rest
      else if 0xC2 ≤ b0 ∧ b0 ≤ 0xDF then
        match rest with
        | [] => false
        | b1 :: r1 => isContinuation b1 && validUtf8 r1
      else if 0xE0 ≤ b0 ∧ b0 ≤ 0xEF then
        match rest with
        | b1 :: b2 :: r2 => isSecond b0 b1 && isContinuation b2 && validUtf8 r2
        | _ => false
      else if 0xF0 ≤ b0 ∧ b0 ≤ 0xF4 then
        match rest with
        | b1 :: b2 :: b3 :: r3 =>
          isSecond b0 b1 && isContinuation b2 && isContinuation b3 && validUtf8 r3
        | _ => false
      else false) := by
  cases rest with
  | nil => rfl
  | cons b1 r1 =>
    cases r1 with
    | nil => rfl
    | cons b2 r2 =>
      cases r2 with
      | nil => rfl
      | cons b3 r3 => rfl

theorem utf8Decode_cons (b0 : Nat) (rest : Bytes) :
    utf8Decode (b0 :: rest) =
      (if b0 < 0x80 then b0 :: utf8Decode rest
      else if 0xC2 ≤ b0 ∧ b0 ≤ 0xDF then
        match rest with
        | [] => [0xFFFD]
        | b1 :: r1 =>
          if isContinuation b1 then (b0 % 32 * 64 + b1 % 64) :: utf8Decode r1
          else 0xFFFD :: utf8Decode (b1 :: r1)
      else if 0xE0 ≤ b0 ∧ b0 ≤ 0xEF then
        match rest with
        | [] => [0xFFFD]
        | b1 :: r1 =>
          if isSecond b0 b1 then
            match r1 with
            | [] => [0xFFFD]
            | b2 :: r2 =>
              if isContinuation b2 then
                (b0 % 16 * 4096 + b1 % 64 * 64 + b2 % 64) :: utf8Decode r2
              else 0xFFFD :: utf8Decode (b2 :: r2)
          else 0xFFFD :: utf8Decode (b1 :: r1)
      else if 0xF0 ≤ b0 ∧ b0 ≤ 0xF4 then
        match rest with
        | [] => [0xFFFD]
        | b1 :: r1 =>
          if isSecond b0 b1 then
            match r1 with
            | [] => [0xFFFD]
            | b2 :: r2 =>
              if isContinuation b2 then
                match r2 with
                | [] => [0xFFFD]
                | b3 :: r3 =>
                  if isContinuation b3 then
                    (b0 % 8 * 262144 + b1 % 64 * 4096 + b2 % 64 * 64 + b3 % 64)
                      :: utf8Decode r3
                  else 0xFFFD :: utf8Decode (b3 :: r3)
              else 0xFFFD :: utf8Decode (b2 :: r2)
          else 0xFFFD :: utf8Decode (b1 :: r1)
      else 0xFFFD :: utf8Decode rest) := by
  cases rest with
  | nil => rfl
  | cons b1 r1 =>
    cases r1 with
    | nil => rfl
    | cons b2 r2 =>
      cases r2 with
      | nil => rfl
      | cons b3 r3 => rfl

theorem utf8Decode_one (b0 : Nat) (rest : Bytes) (h : b0 < 0x80) :
    utf8Decode (b0 :: rest) = b0 :: utf8Decode rest := by
  rw [utf8Decode_cons, if_pos h]

theorem utf8Decode_two (b0 b1 : Nat) (rest : Bytes) (h0 : ¬ b0 < 0x80)
    (h1 : 0xC2 ≤ b0 ∧ b0 ≤ 0xDF) (c1 : isContinuation b1 = true) :
    utf8Decode (b0 :: b1 :: rest) = (b0 % 32 * 64 + b1 % 64) :: utf8Decode rest := by
  rw [utf8Decode_cons, if_neg h0, if_pos h1]
  simp only [c1, if_true]

theorem utf8Decode_three (b0 b1 b2 : Nat) (rest : Bytes) (h0 : ¬ b0 < 0x80)
    (h1 : ¬ (0xC2 ≤ b0 ∧ b0 ≤ 0xDF)) (h2 : 0xE0 ≤ b0 ∧ b0 ≤ 0xEF)
    (c1 : isSecond b0 b1 = true) (c2 : isContinuation b2 = true) :
    utf8Decode (b0 :: b1 :: b2 :: rest)
      = (b0 % 16 * 4096 + b1 % 64 * 64 + b2 % 64) :: utf8Decode rest := by
  rw [utf8Decode_cons, if_neg h0, if_neg h1, if_pos h2]
  simp only [c1, c2, if_true]

theorem utf8Decode_four (b0 b1 b2 b3 : Nat) (rest : Bytes) (h0 : ¬ b0 < 0x80)
    (h1 : ¬ (0xC2 ≤ b0 ∧ b0 ≤ 0xDF)) (h2 : ¬ (0xE0 ≤ b0 ∧ b0 ≤ 0xEF))
    (h3 : 0xF0 ≤ b0 ∧ b0 ≤ 0xF4)
    (c1 : isSecond b0 b1 = true) (c2 : isContinuation b2 = true)
    (c3 : isContinuation b3 = true) :
    utf8Decode (b0 :: b1 :: b2 :: b3 :: rest)
      = (b0 % 8 * 262144 + b1 % 64 * 4096 + b2 % 64 * 64 + b3 % 64) :: utf8Decode rest := by
  rw [utf8Decode_cons, if_neg h0, if_neg h1, if_neg h2, if_pos h3]
  simp only [c1, c2, c3, if_true]

theorem utf8_roundtrip (bs : Bytes) : validUtf8 bs = true → utf8Encode (utf8Decode bs) = bs := by
  induction bs using validUtf8.induct with
  | case1 => intro _; rfl
  | case2 b0 rest h0 ih =>
    intro hv
    rw [validUtf8_cons, if_pos h0] at hv
    rw [utf8Decode_one b0 rest h0]
    show utf8EncodeChar b0 ++ utf8Encode (utf8Decode rest) = _
    unfold utf8EncodeChar
    rw [if_pos h0, ih hv]; rfl
  | case3 b0 h0 h1 =>
    intro hv
    rw [validUtf8_cons, if_neg h0, if_pos h1] at hv
    exact absurd hv Bool.false_ne_true
  | case4 b0 h0 h1 b1 r1 ih =>
    intro hv
    rw [validUtf8_cons, if_neg h0, if_pos h1] at hv
    simp only [Bool.and_eq_true] at hv
    rw [utf8Decode_two b0 b1 r1 h0 h1 hv.1]
    show utf8EncodeChar _ ++ utf8Encode (utf8Decode r1) = _
    rw [enc2 b0 b1 h1 hv.1, ih hv.2]; rfl
  | case5 b0 h0 h1 h2 b1 b2 r2 ih =>
    intro hv
    rw [validUtf8_cons, if_neg h0, if_neg h1, if_pos h2] at hv
    simp only [Bool.and_eq_true] at hv
    rw [utf8Decode_three b0 b1 b2 r2 h0 h1 h2 hv.1.1 hv.1.2]
    show utf8EncodeChar _ ++ utf8Encode (utf8Decode r2) = _
    rw [enc3 b0 b1 b2 h2 hv.1.1 hv.1.2, ih hv.2]; rfl
  | case6 b0 rest h0 h1 h2 hr =>
    intro hv
    exfalso
    rw [validUtf8_cons, if_neg h0, if_neg h1, if_pos h2] at hv
    split at hv
    · exact hr _ _ _ rfl
    · exact Bool.false_ne_true hv
  | case7 b0 h0 h1 h2 h3 b1 b2 b3 r3 ih =>
    intro hv
    rw [validUtf8_cons, if_neg h0, if_neg h1, if_neg h2, if_pos h3] at hv
    simp only [Bool.and_eq_true] at hv
    rw [utf8Decode_four b0 b1 b2 b3 r3 h0 h1 h2 h3 hv.1.1.1 hv.1.1.2 hv.1.2]
    show utf8EncodeChar _ ++ utf8Encode (utf8Decode r3) = _
    rw [enc4 b0 b1 b2 b3 h3 hv.1.1.1 hv.1.1.2 hv.1.2, ih hv.2]; rfl
  | case8 b0 rest h0 h1 h2 h3 hr =>
    intro hv
    exfalso
    rw [validUtf8_cons, if_neg h0, if_neg h1, if_neg h2, if_pos h3] at hv
    split at hv
    · exact hr _ _ _ _ rfl
    · exact Bool.false_ne_true hv
  | case9 b0 rest h0 h1 h2 h3 =>
    intro hv
    rw [validUtf8_cons, if_neg h0, if_neg h1, if_neg h2, if_neg h3] at hv
    exact absurd hv Bool.false_ne_true

/-! ## Factory invocations -/

theorem factoryCalls_append (a b : List Effect) :
    factoryCalls (a ++ b) = factoryCalls a + factoryCalls b := by
  simp [factoryCalls, List.count_append]

/-- With a socket in place, no listener invokes the factory. -/
theorem step_factory_of_socket (s : Session) (e : Event)
    (h : s.deepgramSocket ≠ none) : factoryCalls (step s e).2 = 0 := by
  obtain ⟨ws, hws⟩ := Option.ne_none_iff_exists'.mp h
  cases e with
  | clientMessage isBinary payload =>
    cases hrd : s.deepgramReady <;>
      simp [step, clientOnMessage, hws, Data.instanceofBuffer, hrd, factoryCalls]
  | clientClose =>
    by_cases ho : ws.readyState = ReadyState.OPEN <;>
      simp [step, clientOnClose, hws, ho, factoryCalls]
  | clientError => simp [step, clientOnError, factoryCalls]
  | deepgramOpen =>
    simp only [step, deepgramOnOpen, hws, factoryCalls]
    induction s.audioQueue with
    | nil => rfl
    | cons x xs ih => simpa [List.count_cons] using ih
  | deepgramMessage msg => simp [step, deepgramOnMessage, hws, factoryCalls]
  | deepgramError => simp [step, deepgramOnError, hws, factoryCalls]
  | deepgramClose => simp [step, deepgramOnClose, hws, factoryCalls]

theorem run_factory_of_socket (s : Session) (es : List Event)
    (h : s.deepgramSocket ≠ none) : factoryCalls (run s es).2 = 0 := by
  induction es generalizing s with
  | nil => simp [run, factoryCalls]
  | cons e es ih =>
    simp only [run, factoryCalls_append]
    rw [step_factory_of_socket s e h, ih _ (step_socket_ne_none s e h)]

/-- Without a socket, one event invokes the factory at most once, and if it
does the socket is in place afterwards. -/
theorem step_factory_of_no_socket (s : Session) (e : Event)
    (h : s.deepgramSocket = none) :
    factoryCalls (step s e).2 = 0
    ∨ (factoryCalls (step s e).2 = 1 ∧ (step s e).1.deepgramSocket ≠ none) := by
  cases e with
  | clientMessage isBinary payload =>
    right
    cases hrd : s.deepgramReady <;>
      simp [step, clientOnMessage, h, Data.instanceofBuffer, hrd, factoryCalls]
  | clientClose => left; simp [step, clientOnClose, h, factoryCalls]
  | clientError => left; simp [step, clientOnError, factoryCalls]
  | deepgramOpen => left; simp [step, h, factoryCalls]
  | deepgramMessage msg => left; simp [step, h, factoryCalls]
  | deepgramError => left; simp [step, h, factoryCalls]
  | deepgramClose => left; simp [step, h, factoryCalls]

theorem run_factory_le_one (s : Session) (es : List Event) :
    factoryCalls (run s es).2 ≤ 1 := by
  induction es generalizing s with
  | nil => simp [run, factoryCalls]
  | cons e es ih =>
    simp only [run, factoryCalls_append]
    cases hs : s.deepgramSocket with
    | some ws =>
      have hne : s.deepgramSocket ≠ none := by simp [hs]
      rw [step_factory_of_socket s e hne,
        run_factory_of_socket _ es (step_socket_ne_none s e hne)]
      decide
    | none =>
      rcases step_factory_of_no_socket s e hs with h0 | ⟨h1, hne⟩
      · rw [h0]; simpa using ih (step s e).1
      · rw [h1, run_factory_of_socket _ es hne]

/-- Events other than producer messages leave a fresh session untouched. -/
theorem run_without_messages (s : Session) (es : List Event)
    (hs : s.deepgramSocket = none) (hes : ∀ b p, Event.clientMessage b p ∉ es) :
    run s es = (s, []) := by
  induction es with
  | nil => rfl
  | cons e es ih =>
    have hrest : ∀ b p, Event.clientMessage b p ∉ es := fun b p hd =>
      hes b p (List.mem_cons_of_mem _ hd)
    have hstep : step s e = (s, []) := by
      cases e with
      | clientMessage isBinary payload =>
        exact absurd (List.mem_cons_self _ _) (hes isBinary payload)
      | clientClose => simp [step, clientOnClose, hs]
      | clientError => simp [step, clientOnError]
      | deepgramOpen => simp [step, hs]
      | deepgramMessage msg => simp [step, hs]
      | deepgramError => simp [step, hs]
      | deepgramClose => simp [step, hs]
    simp only [run, hstep, ih hrest, List.append_nil]

/-! ## Where sends come from -/

/-- The ready flag is never cleared. -/
theorem step_ready_mono (s : Session) (e : Event) (h : s.deepgramReady = true) :
    (step s e).1.deepgramReady = true := by
  cases e with
  | clientMessage isBinary payload =>
    cases hs : s.deepgramSocket <;> simp [step, clientOnMessage, hs, Data.instanceofBuffer, h]
  | clientClose =>
    cases hs : s.deepgramSocket with
    | none => simp [step, clientOnClose, hs, h]
    | some ws =>
      by_cases ho : ws.readyState = ReadyState.OPEN <;> simp [step, clientOnClose, hs, ho, h]
  | clientError => simp [step, clientOnError, h]
  | deepgramOpen => cases hs : s.deepgramSocket <;> simp [step, deepgramOnOpen, hs, h]
  | deepgramMessage msg =>
    cases hs : s.deepgramSocket <;> simp [step, deepgramOnMessage, hs, h]
  | deepgramError => cases hs : s.deepgramSocket <;> simp [step, deepgramOnError, hs, h]
  | deepgramClose => cases hs : s.deepgramSocket <;> simp [step, deepgramOnClose, hs, h]

theorem run_ready_mono (s : Session) (es : List Event) (h : s.deepgramReady = true) :
    (run s es).1.deepgramReady = true := by
  induction es generalizing s with
  | nil => simpa [run] using h
  | cons e es ih => simpa [run] using ih _ (step_ready_mono s e h)

/-- The ready flag is set by the "open" listener only. -/
theorem step_ready_origin (s : Session) (e : Event)
    (h : (step s e).1.deepgramReady = true) :
    s.deepgramReady = true ∨ (e = Event.deepgramOpen ∧ s.deepgramSocket ≠ none) := by
  cases hrd : s.deepgramReady with
  | true => exact Or.inl rfl
  | false =>
    right
    cases e with
    | clientMessage isBinary payload =>
      cases hs : s.deepgramSocket <;> simp [step, clientOnMessage, hs, Data.instanceofBuffer, hrd] at h
    | clientClose =>
      cases hs : s.deepgramSocket with
      | none => simp [step, clientOnClose, hs, hrd] at h
      | some ws =>
        by_cases ho : ws.readyState = ReadyState.OPEN <;>
          simp [step, clientOnClose, hs, ho, hrd] at h
    | clientError => simp [step, clientOnError, hrd] at h
    | deepgramOpen =>
      cases hs : s.deepgramSocket with
      | none => simp [step, hs, hrd] at h
      | some ws => simp
    | deepgramMessage msg =>
      cases hs : s.deepgramSocket <;> simp [step, deepgramOnMessage, hs, hrd] at h
    | deepgramError =>
      cases hs : s.deepgramSocket <;> simp [step, deepgramOnError, hs, hrd] at h
    | deepgramClose =>
      cases hs : s.deepgramSocket <;> simp [step, deepgramOnClose, hs, hrd] at h

/-- The socket reaches the OPEN state through the "open" event only. -/
theorem step_open_origin (s : Session) (e : Event) (ws1 : WebSocket)
    (h : (step s e).1.deepgramSocket = some ws1) (ho : ws1.readyState = ReadyState.OPEN) :
    (∃ ws, s.deepgramSocket = some ws ∧ ws.readyState = ReadyState.OPEN)
    ∨ (e = Event.deepgramOpen ∧ s.deepgramSocket ≠ none) := by
  cases hs : s.deepgramSocket with
  | none =>
    exfalso
    cases e with
    | clientMessage isBinary payload =>
      cases hrd : s.deepgramReady <;>
        simp [step, clientOnMessage, hs, Data.instanceofBuffer, hrd, createDeepgramSocket] at h <;>
        (rw [← h] at ho; exact absurd ho (by decide))
    | clientClose => simp [step, clientOnClose, hs] at h
    | clientError => simp [step, clientOnError, hs] at h
    | deepgramOpen => simp [step, hs] at h
    | deepgramMessage msg => simp [step, hs] at h
    | deepgramError => simp [step, hs] at h
    | deepgramClose => simp [step, hs] at h
  | some ws =>
    cases e with
    | deepgramOpen => right; simp
    | clientMessage isBinary payload =>
      left
      cases hrd : s.deepgramReady <;>
        simp [step, clientOnMessage, hs, Data.instanceofBuffer, hrd] at h <;>
        exact ⟨ws, rfl, by rw [h]; exact ho⟩
    | clientClose =>
      left
      by_cases hop : ws.readyState = ReadyState.OPEN
      · exact ⟨ws, rfl, hop⟩
      · simp [step, clientOnClose, hs, hop] at h
        exact ⟨ws, rfl, by rw [h]; exact ho⟩
    | clientError =>
      left
      simp [step, clientOnError, hs] at h
      exact ⟨ws, rfl, by rw [h]; exact ho⟩
    | deepgramMessage msg =>
      left
      simp [step, deepgramOnMessage, hs] at h
      exact ⟨ws, rfl, by rw [h]; exact ho⟩
    | deepgramError =>
      exfalso
      simp [step, deepgramOnError, hs] at h
      rw [← h] at ho
      cases hrs : ws.readyState <;> simp [WebSocket.emitError, hrs] at ho
    | deepgramClose =>
      exfalso
      simp [step, deepgramOnClose, hs] at h
      rw [← h] at ho
      simp [WebSocket.emitClose] at ho

/-- Every call of `deepgramSocket.send` is made by the "open" listener on a
queued chunk, by the producer message listener with the ready flag set, or by
the disconnect listener on a socket whose readyState is OPEN. -/
theorem step_send_origin (s : Session) (e : Event) (rs : ReadyState) (d : Data)
    (h : Effect.deepgramSend rs d ∈ (step s e).2) :
    (e = Event.deepgramOpen ∧ d ∈ s.audioQueue)
    ∨ ((∃ isBinary payload, e = Event.clientMessage isBinary payload
          ∧ d = Data.buffer payload) ∧ s.deepgramReady = true)
    ∨ (e = Event.clientClose ∧ d = closeStreamMessage ∧ rs = ReadyState.OPEN
        ∧ ∃ ws, s.deepgramSocket = some ws ∧ ws.readyState = ReadyState.OPEN) := by
  cases e with
  | clientMessage isBinary payload =>
    right; left
    cases hs : s.deepgramSocket <;> cases hrd : s.deepgramReady <;>
      simp [step, clientOnMessage, hs, Data.instanceofBuffer, hrd] at h
    all_goals exact ⟨⟨isBinary, payload, rfl, h.2⟩, rfl⟩
  | clientClose =>
    right; right
    cases hs : s.deepgramSocket with
    | none => simp [step, clientOnClose, hs] at h
    | some ws =>
      by_cases ho : ws.readyState = ReadyState.OPEN
      · simp [step, clientOnClose, hs, ho] at h
        exact ⟨rfl, h.2, h.1, ws, rfl, ho⟩
      · simp [step, clientOnClose, hs, ho] at h
  | clientError => simp [step, clientOnError] at h
  | deepgramOpen =>
    left
    cases hs : s.deepgramSocket with
    | none => simp [step, hs] at h
    | some ws =>
      simp [step, deepgramOnOpen, hs] at h
      exact ⟨rfl, h.1⟩
  | deepgramMessage msg =>
    cases hs : s.deepgramSocket <;> simp [step, deepgramOnMessage, hs] at h
  | deepgramError =>
    cases hs : s.deepgramSocket <;> simp [step, deepgramOnError, hs] at h
  | deepgramClose =>
    cases hs : s.deepgramSocket <;> simp [step, deepgramOnClose, hs] at h

/-- In a state that satisfies `Inv`, no listener calls `send` on a socket
that is still CONNECTING. -/
theorem step_send_not_connecting (s : Session) (e : Event) (rs : ReadyState) (d : Data)
    (hinv : Inv s) (h : Effect.deepgramSend rs d ∈ (step s e).2) :
    rs ≠ ReadyState.CONNECTING := by
  cases e with
  | clientMessage isBinary payload =>
    cases hrd : s.deepgramReady with
    | false =>
      cases hs : s.deepgramSocket <;> simp [step, clientOnMessage, hs, Data.instanceofBuffer, hrd] at h
    | true =>
      obtain ⟨-, ws, hws, hne⟩ := hinv.2 hrd
      simp [step, clientOnMessage, hws, Data.instanceofBuffer, hrd] at h
      rw [h.1]; exact hne
  | clientClose =>
    cases hs : s.deepgramSocket with
    | none => simp [step, clientOnClose, hs] at h
    | some ws =>
      by_cases ho : ws.readyState = ReadyState.OPEN
      · simp [step, clientOnClose, hs, ho] at h
        rw [h.1]; decide
      · simp [step, clientOnClose, hs, ho] at h
  | clientError => simp [step, clientOnError] at h
  | deepgramOpen =>
    cases hs : s.deepgramSocket with
    | none => simp [step, hs] at h
    | some ws =>
      simp [step, deepgramOnOpen, hs] at h
      rw [← h.2]
      cases hrs : ws.readyState <;> simp [WebSocket.emitOpen, hrs]
  | deepgramMessage msg =>
    cases hs : s.deepgramSocket <;> simp [step, deepgramOnMessage, hs] at h
  | deepgramError =>
    cases hs : s.deepgramSocket <;> simp [step, deepgramOnError, hs] at h
  | deepgramClose =>
    cases hs : s.deepgramSocket <;> simp [step, deepgramOnClose, hs] at h

theorem calls_send_not_connecting (es : List Event) (rs : ReadyState) (d : Data)
    (h : Effect.deepgramSend rs d ∈ callsOf es) : rs ≠ ReadyState.CONNECTING := by
  induction es using List.reverseRecOn with
  | nil => simp [callsOf, run] at h
  | append_singleton es e ih =>
    rw [callsOf_snoc, List.mem_append] at h
    rcases h with h | h
    · exact ih h
    · exact step_send_not_connecting _ e rs d (inv_stateAfter es) h

/-- The ready flag is set only after an "open" event was delivered to an
existing socket. -/
theorem ready_implies_open_delivered (es : List Event)
    (h : (stateAfter es).deepgramReady = true) :
    ∃ pre post, es = pre ++ Event.deepgramOpen :: post
      ∧ (stateAfter pre).deepgramSocket ≠ none := by
  induction es using List.reverseRecOn with
  | nil => simp [stateAfter, run, Session.init] at h
  | append_singleton es e ih =>
    rw [stateAfter_snoc] at h
    rcases step_ready_origin _ e h with h1 | ⟨he, hs⟩
    · obtain ⟨pre, post, hes, hp⟩ := ih h1
      exact ⟨pre, post ++ [e], by rw [hes]; simp, hp⟩
    · exact ⟨es, [], by rw [he], hs⟩

/-- The socket is in the OPEN state only after an "open" event was delivered
to it. -/
theorem open_state_implies_open_delivered (es : List Event) (ws : WebSocket)
    (h : (stateAfter es).deepgramSocket = some ws) (ho : ws.readyState = ReadyState.OPEN) :
    ∃ pre post, es = pre ++ Event.deepgramOpen :: post
      ∧ (stateAfter pre).deepgramSocket ≠ none := by
  induction es using List.reverseRecOn generalizing ws with
  | nil => simp [stateAfter, run, Session.init] at h
  | append_singleton es e ih =>
    rw [stateAfter_snoc] at h
    rcases step_open_origin _ e ws h ho with ⟨ws0, h0, ho0⟩ | ⟨he, hs⟩
    · obtain ⟨pre, post, hes, hp⟩ := ih ws0 h0 ho0
      exact ⟨pre, post ++ [e], by rw [hes]; simp, hp⟩
    · exact ⟨es, [], by rw [he], hs⟩

theorem stateAfter_append (es fs : List Event) :
    stateAfter (es ++ fs) = (run (stateAfter es) fs).1 := by
  simp [stateAfter, run_append]

/-- As long as the ready flag is unset and the socket is not OPEN, events
other than "open" keep it so and send nothing. -/
theorem step_no_open_no_send (s : Session) (e : Event)
    (hr : s.deepgramReady = false)
    (hn : ∀ ws, s.deepgramSocket = some ws → ws.readyState ≠ ReadyState.OPEN)
    (he : e ≠ Event.deepgramOpen) :
    deepgramSends (step s e).2 = []
    ∧ (step s e).1.deepgramReady = false
    ∧ (∀ ws, (step s e).1.deepgramSocket = some ws → ws.readyState ≠ ReadyState.OPEN) := by
  cases e with
  | deepgramOpen => exact absurd rfl he
  | clientMessage isBinary payload =>
    cases hs : s.deepgramSocket with
    | none =>
      simp [step, clientOnMessage, hs, Data.instanceofBuffer, hr, deepgramSends, createDeepgramSocket]
    | some ws =>
      have := hn ws hs
      simp [step, clientOnMessage, hs, Data.instanceofBuffer, hr, deepgramSends, this]
  | clientClose =>
    cases hs : s.deepgramSocket with
    | none => simp [step, clientOnClose, hs, hr, deepgramSends]
    | some ws =>
      have := hn ws hs
      simp [step, clientOnClose, hs, hr, deepgramSends, this]
  | clientError =>
    refine ⟨by simp [step, clientOnError, deepgramSends], by simpa [step, clientOnError] using hr, ?_⟩
    simpa [step, clientOnError] using hn
  | deepgramMessage msg =>
    cases hs : s.deepgramSocket with
    | none => simp [step, hs, hr, deepgramSends]
    | some ws =>
      have := hn ws hs
      simp [step, deepgramOnMessage, hs, hr, deepgramSends, this]
  | deepgramError =>
    cases hs : s.deepgramSocket with
    | none => simp [step, hs, hr, deepgramSends]
    | some ws =>
      cases hrs : ws.readyState <;>
        simp [step, deepgramOnError, hs, hr, deepgramSends, WebSocket.emitError, hrs]
  | deepgramClose =>
    cases hs : s.deepgramSocket with
    | none => simp [step, hs, hr, deepgramSends]
    | some ws =>
      simp [step, deepgramOnClose, hs, hr, deepgramSends, WebSocket.emitClose]

theorem run_no_open_no_send (s : Session) (es : List Event)
    (hr : s.deepgramReady = false)
    (hn : ∀ ws, s.deepgramSocket = some ws → ws.readyState ≠ ReadyState.OPEN)
    (hes : Event.deepgramOpen ∉ es) :
    deepgramSends (run s es).2 = [] := by
  induction es generalizing s with
  | nil => simp [run, deepgramSends]
  | cons e es ih =>
    have he : e ≠ Event.deepgramOpen := fun h => hes (by rw [h]; exact List.mem_cons_self _ _)
    have hrest : Event.deepgramOpen ∉ es := fun h => hes (List.mem_cons_of_mem _ h)
    obtain ⟨h1, h2, h3⟩ := step_no_open_no_send s e hr hn he
    simp only [run, deepgramSends_append, h1, ih _ h2 h3 hrest, List.append_nil]

/-! ## The claims -/

/-- What the relay really sends around the "open" event: when the producer
frames `pre` (at least one, so that the Deepgram socket exists) arrive before
the single "open" event and the producer frames and Deepgram messages `post`
after it, the payloads passed to `deepgramSocket.send` are all the frames of
`pre` in arrival order followed by all the producer frames of `post` in
arrival order, text frames included. -/
theorem sends_are_all_frames_in_order (pre post : List Event) (hne : pre ≠ [])
    (hpre : ∀ e ∈ pre, e.isProducerFrame = true)
    (hpost : ∀ e ∈ post, e.isTraffic = true) :
    deepgramSends (callsOf (pre ++ Event.deepgramOpen :: post))
      = framesReceived pre ++ framesReceived post := by
  have htr : ∀ e ∈ pre, e.isTraffic = true := by
    intro e he
    have := hpre e he
    cases e <;> simp_all [Event.isProducerFrame, Event.isTraffic]
  obtain ⟨-, p2, p3⟩ := run_traffic_not_ready pre Session.init rfl htr
  have hsock : (run Session.init pre).1.deepgramSocket ≠ none := by
    cases pre with
    | nil => exact absurd rfl hne
    | cons e es =>
      simp only [run]
      exact run_socket_ne_none _ _
        (step_frame_socket _ e (hpre e (List.mem_cons_self _ _)))
  obtain ⟨ws, hws⟩ := Option.ne_none_iff_exists'.mp hsock
  have hopen : (step (run Session.init pre).1 .deepgramOpen).1
        = { deepgramSocket := some ws.emitOpen, deepgramReady := true, audioQueue := [] }
      ∧ deepgramSends (step (run Session.init pre).1 .deepgramOpen).2
        = framesReceived pre := by
    rw [step_open_of_socket _ ws hws]
    refine ⟨rfl, ?_⟩
    rw [deepgramSends_map_send, p2]
    simp [Session.init]
  obtain ⟨o1, o2⟩ := hopen
  obtain ⟨-, q2⟩ := run_traffic_ready post
    { deepgramSocket := some ws.emitOpen, deepgramReady := true, audioQueue := [] }
    ws.emitOpen rfl rfl hpost
  simp only [callsOf, run_append, run, deepgramSends_append]
  rw [p3, o2, o1, q2]
  simp

/-- C1 (ordering), the code on the session binary frame 01, Deepgram "open",
text frame "hi": the only binary frame received is 01, before the "open"
event, and the payloads passed to `deepgramSocket.send` are 01 followed by
the bytes 68 69 of the text frame. -/
theorem text_frame_after_open_is_sent :
    binaryFrames [Event.clientMessage true [0x01], Event.deepgramOpen,
        Event.clientMessage false [0x68, 0x69]]
      = [Data.buffer [0x01]]
    ∧ deepgramSends (callsOf [Event.clientMessage true [0x01], Event.deepgramOpen,
        Event.clientMessage false [0x68, 0x69]])
      = [Data.buffer [0x01], Data.buffer [0x68, 0x69]] := by
  decide

/-- C2 (conservation of frames), the code on two sessions.  A lone text frame
"hi" is appended to the queue although no binary frame was received.  After
text frame "hi", binary frame 01 and Deepgram "open", the audio frames sent
are 68 69 and 01 and the queue is empty, while the binary frames received
are 01 alone. -/
theorem text_frame_is_queued_and_sent :
    (binaryFrames [Event.clientMessage false [0x68, 0x69]] = []
      ∧ (stateAfter [Event.clientMessage false [0x68, 0x69]]).audioQueue
          = [Data.buffer [0x68, 0x69]])
    ∧ (binaryFrames [Event.clientMessage false [0x68, 0x69],
          Event.clientMessage true [0x01], Event.deepgramOpen]
        = [Data.buffer [0x01]]
      ∧ audioSent (callsOf [Event.clientMessage false [0x68, 0x69],
          Event.clientMessage true [0x01], Event.deepgramOpen])
        = [Data.buffer [0x68, 0x69], Data.buffer [0x01]]
      ∧ (stateAfter [Event.clientMessage false [0x68, 0x69],
          Event.clientMessage true [0x01], Event.deepgramOpen]).audioQueue = []) := by
  decide

/-- C3 (lazy connection), the code on a session whose only event is the text
frame "hi" of the producer: no binary frame has arrived, and the factory
`createDeepgramSocket` has been invoked once. -/
theorem text_frame_invokes_factory :
    binaryFrames [Event.clientMessage false [0x68, 0x69]] = []
    ∧ factoryCalls (callsOf [Event.clientMessage false [0x68, 0x69]]) = 1 := by
  decide

/-- C4 (graceful close): on producer disconnect with a Deepgram socket whose
readyState is OPEN, the calls made are exactly one send of the string
`{"type":"CloseStream"}` followed by one close; the code points of that
string are spelled out; with no Deepgram socket the disconnect makes no call
and changes nothing; and a session that received no producer message makes no
call at all up to and including the disconnect. -/
theorem disconnect_sends_closeStream_then_close (s : Session) :
    (∀ ws, s.deepgramSocket = some ws → ws.readyState = ReadyState.OPEN →
      (step s .clientClose).2
        = [Effect.deepgramSend ReadyState.OPEN
            (Data.text ("\x7b\"type\":\"CloseStream\"\x7d".toList.map Char.toNat)),
           Effect.deepgramClose])
    ∧ "\x7b\"type\":\"CloseStream\"\x7d".toList.map Char.toNat
        = [123, 34, 116, 121, 112, 101, 34, 58, 34,
           67, 108, 111, 115, 101, 83, 116, 114, 101, 97, 109, 34, 125]
    ∧ (s.deepgramSocket = none → step s .clientClose = (s, []))
    ∧ (∀ es : List Event, (∀ b p, Event.clientMessage b p ∉ es) →
        callsOf (es ++ [Event.clientClose]) = []) := by
  refine ⟨?_, by decide, ?_, ?_⟩
  · intro ws hs ho
    simp [step, clientOnClose, hs, ho, closeStreamMessage]
  · intro hs
    simp [step, clientOnClose, hs]
  · intro es hes
    have h := run_without_messages Session.init es rfl hes
    simp only [callsOf, run_append, h, run]
    simp [step, clientOnClose, Session.init]

/-- C5 (idempotent teardown): in every session state, a second run of the
disconnect listener right after the first makes no call and leaves the state
as the first one left it; so two runs give the same state and the same calls
as one. -/
theorem disconnect_idempotent (s : Session) :
    step (step s .clientClose).1 .clientClose = ((step s .clientClose).1, [])
    ∧ run s [Event.clientClose, Event.clientClose] = run s [Event.clientClose] := by
  have h : step (step s .clientClose).1 .clientClose = ((step s .clientClose).1, []) := by
    cases hs : s.deepgramSocket with
    | none => simp [step, clientOnClose, hs]
    | some ws =>
      by_cases ho : ws.readyState = ReadyState.OPEN
      · simp [step, clientOnClose, hs, ho, WebSocket.close]
      · simp [step, clientOnClose, hs, ho]
  refine ⟨h, ?_⟩
  simp [run, h]

/-- C8 (single connection): whatever the events of a session, Deepgram errors
and closes followed by further producer frames included, the factory
`createDeepgramSocket` is invoked at most once. -/
theorem factory_invoked_at_most_once (es : List Event) :
    factoryCalls (callsOf es) ≤ 1 :=
  run_factory_le_one Session.init es

/-- C6 as stated fails: the producer sends the frame [1] and disconnects while
the Deepgram socket is still CONNECTING with that frame queued; the "open"
event that arrives afterwards sends the queued frame to Deepgram. -/
theorem queued_frame_sent_after_disconnect :
    stateAfter [Event.clientMessage true [1]]
      = { deepgramSocket := some ⟨ReadyState.CONNECTING⟩, deepgramReady := false,
          audioQueue := [Data.buffer [1]] }
    ∧ callsOf [Event.clientMessage true [1], Event.clientClose, Event.deepgramOpen]
      = [Effect.createDeepgramSocket,
         Effect.deepgramSend ReadyState.OPEN (Data.buffer [1])] := by
  decide

/-- C6 as amended: a producer disconnect while the session is connecting
(socket created and CONNECTING, ready flag unset) makes no call and leaves
the session state, queue included, as it was; after it no frame is sent to
Deepgram as long as no "open" event is delivered; and an "open" event
delivered after the disconnect sends the whole queue, in queue order. -/
theorem disconnect_while_connecting_keeps_queue (s : Session) (ws : WebSocket)
    (hs : s.deepgramSocket = some ws) (hc : ws.readyState = ReadyState.CONNECTING)
    (hr : s.deepgramReady = false) :
    step s .clientClose = (s, [])
    ∧ (∀ es : List Event, Event.deepgramOpen ∉ es →
        deepgramSends (run s (Event.clientClose :: es)).2 = [])
    ∧ deepgramSends (step (step s .clientClose).1 .deepgramOpen).2 = s.audioQueue := by
  have hclose : step s .clientClose = (s, []) := by
    simp [step, clientOnClose, hs, hc]
  have hn : ∀ w, s.deepgramSocket = some w → w.readyState ≠ ReadyState.OPEN := by
    intro w hw
    rw [hs] at hw
    cases hw
    rw [hc]; decide
  refine ⟨hclose, ?_, ?_⟩
  · intro es hes
    simp only [run, hclose, deepgramSends_append]
    rw [run_no_open_no_send s es hr hn hes]; rfl
  · rw [hclose, step_open_of_socket s ws hs]
    exact deepgramSends_map_send _ _

/-- C6 as amended, at the session that has queued the frames [1] and [2]. -/
theorem disconnect_while_connecting_keeps_queue_witness :
    step { deepgramSocket := some ⟨ReadyState.CONNECTING⟩, deepgramReady := false,
           audioQueue := [Data.buffer [1], Data.buffer [2]] } .clientClose
      = ({ deepgramSocket := some ⟨ReadyState.CONNECTING⟩, deepgramReady := false,
           audioQueue := [Data.buffer [1], Data.buffer [2]] }, [])
    ∧ deepgramSends (step (step
          { deepgramSocket := some ⟨ReadyState.CONNECTING⟩, deepgramReady := false,
            audioQueue := [Data.buffer [1], Data.buffer [2]] } .clientClose).1
          .deepgramOpen).2
      = [Data.buffer [1], Data.buffer [2]] :=
  have h := disconnect_while_connecting_keeps_queue
    { deepgramSocket := some ⟨ReadyState.CONNECTING⟩, deepgramReady := false,
      audioQueue := [Data.buffer [1], Data.buffer [2]] }
    ⟨ReadyState.CONNECTING⟩ rfl rfl rfl
  ⟨h.1, h.2.2⟩

/-- C7 as stated fails: Deepgram delivers the one-byte payload FF, which is
not UTF-8; the relay sends the producer the string U+FFFD, whose bytes on the
wire are EF BF BD. -/
theorem invalid_utf8_payload_is_altered :
    (step { deepgramSocket := some ⟨ReadyState.OPEN⟩, deepgramReady := true,
            audioQueue := [] }
        (Event.deepgramMessage (Data.buffer [0xFF]))).2 = [Effect.clientSend [0xFFFD]]
    ∧ utf8Encode [0xFFFD] = [0xEF, 0xBF, 0xBD]
    ∧ utf8Encode [0xFFFD] ≠ [0xFF] := by
  decide

/-- C7 as amended: for every payload delivered by the "message" event of the
Deepgram socket, in any session state, the relay leaves the state as it is
and makes exactly one call, a send to the producer of `msg.toString()`, the
payload decoded as UTF-8 text; when the payload is well-formed UTF-8 the bytes
of that text are the bytes of the payload. -/
theorem remote_message_forwarded_as_text (s : Session) (ws : WebSocket) (msg : Data)
    (hs : s.deepgramSocket = some ws) :
    step s (.deepgramMessage msg) = (s, [Effect.clientSend msg.toString])
    ∧ (∀ bytes, msg = Data.buffer bytes → validUtf8 bytes = true →
        utf8Encode msg.toString = bytes) := by
  refine ⟨by simp [step, deepgramOnMessage, hs], ?_⟩
  intro bytes hm hv
  rw [hm]
  exact utf8_roundtrip bytes hv

/-- C7 as amended, at the payload 68 C3 A9 (the text "hé"). -/
theorem remote_message_forwarded_as_text_witness :
    step { deepgramSocket := some ⟨ReadyState.OPEN⟩, deepgramReady := true,
           audioQueue := [] } (.deepgramMessage (Data.buffer [0x68, 0xC3, 0xA9]))
      = ({ deepgramSocket := some ⟨ReadyState.OPEN⟩, deepgramReady := true,
           audioQueue := [] }, [Effect.clientSend [0x68, 0xE9]])
    ∧ utf8Encode [0x68, 0xE9] = [0x68, 0xC3, 0xA9] :=
  have h := remote_message_forwarded_as_text
    { deepgramSocket := some ⟨ReadyState.OPEN⟩, deepgramReady := true, audioQueue := [] }
    ⟨ReadyState.OPEN⟩ (Data.buffer [0x68, 0xC3, 0xA9]) rfl
  ⟨h.1, h.2 [0x68, 0xC3, 0xA9] rfl (by decide)⟩

/-- C9 as stated fails: after a Deepgram "error" before "open" the socket
variable is still set and the next binary frame joins the queue, which grows
from one to two frames; after a Deepgram "close" that follows "open" the next
binary frame is passed to `send` on the closed socket. -/
theorem frames_after_remote_death_not_discarded :
    (stateAfter [Event.clientMessage true [1], Event.deepgramError]).deepgramSocket
      ≠ none
    ∧ (stateAfter [Event.clientMessage true [1], Event.deepgramError,
        Event.clientMessage true [2]]).audioQueue
      = [Data.buffer [1], Data.buffer [2]]
    ∧ (step (stateAfter [Event.clientMessage true [1], Event.deepgramOpen,
          Event.deepgramClose]) (Event.clientMessage true [2])).2
      = [Effect.deepgramSend ReadyState.CLOSED (Data.buffer [2])] := by
  decide

/-- C9 as amended: a Deepgram "error" or "close" event makes no call and
changes neither the socket variable (it stays set), nor the ready flag, nor
the queue; a binary frame that arrives next is handled as before the event:
appended to the queue and not sent when the ready flag is unset, passed to
`deepgramSocket.send` and not queued when it is set. -/
theorem remote_death_keeps_socket_and_flow (s : Session) (ws : WebSocket) (e : Event)
    (hs : s.deepgramSocket = some ws)
    (he : e = Event.deepgramError ∨ e = Event.deepgramClose) :
    (step s e).2 = []
    ∧ (step s e).1.deepgramSocket ≠ none
    ∧ (step s e).1.deepgramReady = s.deepgramReady
    ∧ (step s e).1.audioQueue = s.audioQueue
    ∧ (∀ payload : Bytes,
        (s.deepgramReady = false →
          (step (step s e).1 (.clientMessage true payload)).1.audioQueue
            = s.audioQueue ++ [Data.buffer payload]
          ∧ deepgramSends (step (step s e).1 (.clientMessage true payload)).2 = [])
        ∧ (s.deepgramReady = true →
          (step (step s e).1 (.clientMessage true payload)).1.audioQueue = s.audioQueue
          ∧ deepgramSends (step (step s e).1 (.clientMessage true payload)).2
            = [Data.buffer payload])) := by
  rcases he with he | he <;> subst he
  · refine ⟨by simp [step, deepgramOnError, hs], by simp [step, deepgramOnError, hs],
      by simp [step, deepgramOnError, hs], by simp [step, deepgramOnError, hs], ?_⟩
    intro payload
    constructor <;> intro hr <;>
      simp [step, deepgramOnError, clientOnMessage, hs, Data.instanceofBuffer, hr,
        deepgramSends]
  · refine ⟨by simp [step, deepgramOnClose, hs], by simp [step, deepgramOnClose, hs],
      by simp [step, deepgramOnClose, hs], by simp [step, deepgramOnClose, hs], ?_⟩
    intro payload
    constructor <;> intro hr <;>
      simp [step, deepgramOnClose, clientOnMessage, hs, Data.instanceofBuffer, hr,
        deepgramSends]

/-- C9 as amended, at a connecting session with one queued frame that gets a
Deepgram "error" and then the binary frame [2]. -/
theorem remote_death_keeps_socket_and_flow_witness :
    (step { deepgramSocket := some ⟨ReadyState.CONNECTING⟩, deepgramReady := false,
            audioQueue := [Data.buffer [1]] } Event.deepgramError).2 = []
    ∧ (step
        (step { deepgramSocket := some ⟨ReadyState.CONNECTING⟩, deepgramReady := false,
                audioQueue := [Data.buffer [1]] } Event.deepgramError).1
        (.clientMessage true [2])).1.audioQueue
      = [Data.buffer [1], Data.buffer [2]] :=
  have h := remote_death_keeps_socket_and_flow
    { deepgramSocket := some ⟨ReadyState.CONNECTING⟩, deepgramReady := false,
      audioQueue := [Data.buffer [1]] }
    ⟨ReadyState.CONNECTING⟩ Event.deepgramError rfl (Or.inl rfl)
  ⟨h.1, ((h.2.2.2.2 [2]).1 rfl).1⟩

/-- C10 (no send before open): after any sequence of session events, the
ready flag is set only if an "open" event was delivered to the existing
socket, and so is the OPEN readyState; a set ready flag stays set whatever
comes next; every call of `deepgramSocket.send` is made by the "open" listener
on a queued chunk, or by the message listener with the ready flag set, or by
the disconnect listener on a socket whose readyState is OPEN (the CloseStream
message); and no call of `send` in the whole run is made on a socket that is
still CONNECTING. -/
theorem no_send_before_open (es : List Event) :
    ((stateAfter es).deepgramReady = true →
      ∃ pre post, es = pre ++ Event.deepgramOpen :: post
        ∧ (stateAfter pre).deepgramSocket ≠ none)
    ∧ (∀ ws, (stateAfter es).deepgramSocket = some ws → ws.readyState = ReadyState.OPEN →
      ∃ pre post, es = pre ++ Event.deepgramOpen :: post
        ∧ (stateAfter pre).deepgramSocket ≠ none)
    ∧ (∀ fs : List Event, (stateAfter es).deepgramReady = true →
        (stateAfter (es ++ fs)).deepgramReady = true)
    ∧ (∀ (e : Event) (rs : ReadyState) (d : Data),
        Effect.deepgramSend rs d ∈ (step (stateAfter es) e).2 →
          (e = Event.deepgramOpen ∧ d ∈ (stateAfter es).audioQueue)
          ∨ ((∃ isBinary payload, e = Event.clientMessage isBinary payload
                ∧ d = Data.buffer payload) ∧ (stateAfter es).deepgramReady = true)
          ∨ (e = Event.clientClose ∧ d = closeStreamMessage ∧ rs = ReadyState.OPEN
              ∧ ∃ ws, (stateAfter es).deepgramSocket = some ws
                  ∧ ws.readyState = ReadyState.OPEN))
    ∧ (∀ (rs : ReadyState) (d : Data),
        Effect.deepgramSend rs d ∈ callsOf es → rs ≠ ReadyState.CONNECTING) := by
  refine ⟨ready_implies_open_delivered es, open_state_implies_open_delivered es, ?_, ?_, ?_⟩
  · intro fs h
    rw [stateAfter_append]
    exact run_ready_mono _ fs h
  · intro e rs d h
    exact step_send_origin _ e rs d h
  · intro rs d h
    exact calls_send_not_connecting es rs d h

end Relay
